import Mathlib

set_option autoImplicit false

/-
  Verification of the record-store backend (NestJS/MongoDB commerce API):
  a shallow embedding of the catalog repository (`record.repository.ts`),
  the order coordinator (`order.service.ts`) and the cache-backed record
  service, with theorems about stock reservation, compensation, price
  snapshots, cache invalidation and pagination.
-/

namespace RecordStoreSpec

/-- A tracklist entry, from the `Track` shape used by `record.schema.ts`
(`position`, `title`, optional `length` in milliseconds). -/
structure Track where
  position : Nat
  title : String
  length : Option Nat
  deriving DecidableEq, Repr

/-- A catalog record, from `record.schema.ts`: `artist`, `album`, `price`,
`qty`, `format`, `category`, optional `mbid`, optional `tracklist`, plus the
soft-delete tombstone `deletedAt` (set by the delete path, absent on live
records).  Mongo stores integers; `price` and `qty` are embedded as `Int`
(the store itself never clamps them). -/
structure Record where
  artist : String
  album : String
  price : Int
  qty : Int
  format : String
  category : String
  mbid : Option String
  tracklist : List Track
  deletedAt : Option Nat
  deriving DecidableEq, Repr

/-- The Mongo `records` collection: documents keyed by `_id`. -/
abbrev RecordStore := List (Nat × Record)

/-- Lookup by `_id` (Mongo `_id` values are unique; first match). -/
def findRec : RecordStore → Nat → Option Record
  | [], _ => none
  | p :: ps, id => if p.1 = id then some p.2 else findRec ps id

/-- Replace the document with the given `_id` (first match), as a Mongo
`findOneAndUpdate` write-back does. -/
def setRec : RecordStore → Nat → Record → RecordStore
  | [], _, _ => []
  | p :: ps, id, r => if p.1 = id then (id, r) :: ps else p :: setRec ps id r

/-- A JavaScript numeric query parameter: absent (`undefined`), a
non-numeric value (`Number(x)` is `NaN`), or an integer. -/
inductive JSNum where
  | missing
  | nan
  | num (i : Int)
  deriving DecidableEq, Repr

/-- `Number(x) || d`: `NaN` and `0` are falsy in JavaScript, so an absent,
non-numeric or zero value falls back to the default. -/
def jsNumOr (x : JSNum) (d : Int) : Int :=
  match x with
  | .missing => d
  | .nan => d
  | .num i => if i = 0 then d else i

/-- `RecordFilter` from `record.repository.ts`: optional text/field filters
plus pagination bounds. -/
structure RecordFilter where
  q : Option String
  artist : Option String
  album : Option String
  format : Option String
  category : Option String
  limit : JSNum
  offset : JSNum
  deriving DecidableEq, Repr

/-- JavaScript truthiness of an optional string (`if (filter.q)`): both
`undefined` and `""` are falsy. -/
def strTruthy : Option String → Option String
  | some s => if s = "" then none else some s
  | none => none

/-- Case-insensitive substring test, modelling
`new RegExp(pattern, 'i').test(subject)` for a literal pattern. -/
def ciContains (subject pattern : String) : Bool :=
  (subject.toLower.data.tails).any (fun t => pattern.toLower.data.isPrefixOf t)

/-- `RecordRepository.buildQuery`: `q` searches artist/album/category with a
case-insensitive regex (`$or`), `artist`/`album` are case-insensitive regex
filters, `format`/`category` are exact matches. -/
def buildQuery (filter : RecordFilter) (r : Record) : Bool :=
  (match strTruthy filter.q with
   | some qs => ciContains r.artist qs || ciContains r.album qs || ciContains r.category qs
   | none => true)
  && (match strTruthy filter.artist with
      | some a => ciContains r.artist a
      | none => true)
  && (match strTruthy filter.album with
      | some a => ciContains r.album a
      | none => true)
  && (match strTruthy filter.format with
      | some f => r.format == f
      | none => true)
  && (match strTruthy filter.category with
      | some c => r.category == c
      | none => true)

/-- The `{data, total, limit, offset}` page returned by
`RecordRepository.findAll`. -/
structure FindAllResult where
  data : List Record
  total : Nat
  limit : Int
  offset : Int
  deriving DecidableEq, Repr

/-- A `Partial<Record>` update document, as passed to
`RecordRepository.updateById` (mongoose applies it as a `$set` of the
present fields). -/
structure RecordUpdate where
  artist : Option String
  album : Option String
  price : Option Int
  qty : Option Int
  format : Option String
  category : Option String
  mbid : Option String
  tracklist : Option (List Track)
  deletedAt : Option Nat
  deriving DecidableEq, Repr

/-- The empty update document (no fields present). -/
def emptyUpdate : RecordUpdate :=
  { artist := none, album := none, price := none, qty := none, format := none,
    category := none, mbid := none, tracklist := none, deletedAt := none }

/-- Apply a partial update to a document (`$set` of the present fields). -/
def applyUpdate (r : Record) (u : RecordUpdate) : Record :=
  { artist := u.artist.getD r.artist
    album := u.album.getD r.album
    price := u.price.getD r.price
    qty := u.qty.getD r.qty
    format := u.format.getD r.format
    category := u.category.getD r.category
    mbid := match u.mbid with | some m => some m | none => r.mbid
    tracklist := u.tracklist.getD r.tracklist
    deletedAt := match u.deletedAt with | some d => some d | none => r.deletedAt }

namespace RecordRepository

/-- `RecordRepository.create`: `recordModel.create(data)` inserts a new
document under a fresh `_id`. -/
def create (s : RecordStore) (id : Nat) (r : Record) : RecordStore :=
  s ++ [(id, r)]

/-- `RecordRepository.findById`:
`findOne({ _id: id, deletedAt: null })` — tombstoned records are excluded. -/
def findById (s : RecordStore) (id : Nat) : Option Record :=
  match findRec s id with
  | some r => if r.deletedAt.isNone then some r else none
  | none => none

/-- `RecordRepository.findAll`: clamps `limit` to
`Math.min(Number(filter.limit) || 20, 100)` and `offset` to
`Math.max(Number(filter.offset) || 0, 0)`, filters by `buildQuery` plus
`deletedAt: { $exists: false }`, pages `data` with `limit`/`skip`, and
counts `total` over the same query without pagination. -/
def findAll (s : RecordStore) (filter : RecordFilter) : FindAllResult :=
  let limit := min (jsNumOr filter.limit 20) 100
  let offset := max (jsNumOr filter.offset 0) 0
  let matching := (s.map Prod.snd).filter (fun r => buildQuery filter r && r.deletedAt.isNone)
  { data := (matching.drop offset.toNat).take limit.toNat
    total := matching.length
    limit := limit
    offset := offset }

/-- `RecordRepository.updateById`:
`findOneAndUpdate({ _id: id, deletedAt: { $exists: false } }, update, { new: true })`
— applies the partial update to a live (non-tombstoned) record and returns
the post-update document, or `null` when absent or tombstoned. -/
def updateById (s : RecordStore) (id : Nat) (u : RecordUpdate) : Option Record × RecordStore :=
  match findRec s id with
  | some r =>
      if r.deletedAt.isNone then
        let r' := applyUpdate r u
        (some r', setRec s id r')
      else (none, s)
  | none => (none, s)

/-- `RecordRepository.decrementStockIfAvailable`:
`findOneAndUpdate({ _id: recordId, qty: { $gte: quantity } }, { $inc: { qty: -quantity } }, { new: true })`
— a single atomic conditional decrement.  Note the query filters only on
`_id` and `qty`; it does NOT exclude tombstoned (`deletedAt`-set) records. -/
def decrementStockIfAvailable (s : RecordStore) (recordId : Nat) (quantity : Int) :
    Option Record × RecordStore :=
  match findRec s recordId with
  | some r =>
      if quantity ≤ r.qty then
        let r' := { r with qty := r.qty - quantity }
        (some r', setRec s recordId r')
      else (none, s)
  | none => (none, s)

/-- `RecordRepository.incrementStock`:
`findByIdAndUpdate(recordId, { $inc: { qty: quantity } }, { new: true })`
— an unconditional increment on the record with that `_id` (again with no
tombstone filter), `null` when the record is absent. -/
def incrementStock (s : RecordStore) (recordId : Nat) (quantity : Int) :
    Option Record × RecordStore :=
  match findRec s recordId with
  | some r =>
      let r' := { r with qty := r.qty + quantity }
      (some r', setRec s recordId r')
  | none => (none, s)

end RecordRepository

/-- The qty-nonnegativity invariant over the whole store (spec §3: `qty`
integer, ≥ 0, never negative). -/
abbrev StockNonneg (s : RecordStore) : Prop := ∀ p ∈ s, 0 ≤ p.2.qty

/-- An order document, from `order.schema.ts` / `OrderRepository.create`:
`recordId` (reference to the catalog record), `quantity`, `price` (the
snapshot captured at creation). -/
structure Order where
  recordId : Nat
  quantity : Int
  price : Int
  deriving DecidableEq, Repr

/-- The error outcomes of `OrderService.create`:
`insufficientStock` is the `ConflictException('Insufficient stock')`;
`persistenceFailure` is a storage error raised by `orderRepository.create`;
`releaseFailure` is an error raised by `recordService.incrementStock`
during the rollback. -/
inductive OrderErr where
  | insufficientStock
  | persistenceFailure
  | releaseFailure
  deriving DecidableEq, Repr

/-- Collaborator calls issued by the coordinator, in order: the stock
reservation, the order-store insert, and the compensating release. -/
inductive Ev where
  | reserveCall (recordId : Nat) (quantity : Int)
  | persistCall
  | releaseCall (recordId : Nat) (quantity : Int)
  deriving DecidableEq, Repr

/-- The state visible to the order coordinator: the record store, the
persisted orders, the service log and the trace of collaborator calls. -/
structure OrderWorld where
  records : RecordStore
  orders : List Order
  log : List String
  trace : List Ev
  deriving DecidableEq, Repr

namespace OrderService

/-- `OrderService.create(dto)` from `order.service.ts`:
1. `decrementStockIfAvailable(dto.recordId, dto.quantity)`; a `null` result
   raises `ConflictException('Insufficient stock')`;
2. otherwise persist `{recordId, quantity, price: updatedRecord.price}`
   via `orderRepository.create`;
3. if persistence throws, log
   `Order creation failed, rolling back stock`, call
   `incrementStock(recordId, quantity)` once, and re-raise the original
   error; if that `incrementStock` call itself throws, its error
   propagates instead (the `throw error` line is never reached).
The oracles `persistFails` and `releaseThrows` stand for the two external
calls failing (the order store rejecting the insert, and the release
rejecting); a throwing call leaves its store untouched. -/
def create (w : OrderWorld) (recordId : Nat) (quantity : Int)
    (persistFails releaseThrows : Bool) : Except OrderErr Order × OrderWorld :=
  let reserved := RecordRepository.decrementStockIfAvailable w.records recordId quantity
  let w1 := { w with records := reserved.2
                     trace := w.trace ++ [.reserveCall recordId quantity] }
  match reserved.1 with
  | none => (.error .insufficientStock, w1)
  | some updatedRecord =>
      if persistFails then
        let w2 := { w1 with
          log := w1.log ++ ["Order creation failed, rolling back stock"]
          trace := w1.trace ++ [.persistCall, .releaseCall recordId quantity] }
        if releaseThrows then
          (.error .releaseFailure, w2)
        else
          (.error .persistenceFailure,
            { w2 with records := (RecordRepository.incrementStock w2.records recordId quantity).2 })
      else
        let o : Order := { recordId := recordId, quantity := quantity, price := updatedRecord.price }
        (.ok o, { w1 with orders := w1.orders ++ [o], trace := w1.trace ++ [.persistCall] })

end OrderService

/-- A catalog update run against the coordinator-visible state: it goes
through `RecordRepository.updateById`, which touches only the record
collection — the order collection has no update path in the source. -/
def updateRecordW (w : OrderWorld) (id : Nat) (u : RecordUpdate) :
    Option Record × OrderWorld :=
  let out := RecordRepository.updateById w.records id u
  (out.1, { w with records := out.2 })

/-- Run a batch of `createOrder` requests against one record, in arrival
order.  Each request is the full coordinator flow with the order store
accepting the insert; since every stock access inside one call is a single
atomic store operation, an arbitrary concurrent interleaving of the calls
is exactly a sequential run in some arrival order, and quantifying over
the request list covers every order. -/
def runOrders (w : OrderWorld) (id : Nat) : List Int → OrderWorld × List (Except OrderErr Order)
  | [] => (w, [])
  | q :: qs =>
      let step := OrderService.create w id q false false
      let rest := runOrders step.2 id qs
      (rest.1, step.1 :: rest.2)

/-- Total quantity across the successful results of a batch. -/
def successTotal : List (Except OrderErr Order) → Int
  | [] => 0
  | .ok o :: rs => o.quantity + successTotal rs
  | .error _ :: rs => successTotal rs

/-- State for the cache-backed record service: the record store plus the
filter-keyed read cache (at most one entry per key; the key is the
canonical serialization of the filter, modelled by the filter itself). -/
structure CacheWorld where
  records : RecordStore
  cache : List (RecordFilter × FindAllResult)
  deriving DecidableEq, Repr

namespace RecordService

/-- Modelled from the spec: the repository's cache-backed
`record.service.ts` is absent from the source tree (only its unit tests,
the `CacheModule` registration and the README describe it).  Per spec §4.3
and the `findAll` unit tests, `listRecords` consults the cache under the
key `records:` + JSON of the filter, returns the cached page on a hit, and
on a miss queries the repository and stores the page. -/
def findAllCached (w : CacheWorld) (filter : RecordFilter) : FindAllResult × CacheWorld :=
  match w.cache.find? (fun e => e.1 == filter) with
  | some e => (e.2, w)
  | none =>
      let res := RecordRepository.findAll w.records filter
      (res, { w with cache := w.cache ++ [(filter, res)] })

/-- Modelled from the spec: `invalidateAll()` — coarse invalidation
covering all filter-keyed entries. -/
def invalidateAll (w : CacheWorld) : CacheWorld := { w with cache := [] }

/-- Modelled from the spec: record creation (repository insert) followed by
the blanket cache invalidation performed after any catalog mutation. -/
def createRecordC (w : CacheWorld) (id : Nat) (r : Record) : CacheWorld :=
  invalidateAll { w with records := RecordRepository.create w.records id r }

/-- Modelled from the spec: record update (`RecordRepository.updateById`)
followed by the blanket cache invalidation. -/
def updateRecordC (w : CacheWorld) (id : Nat) (u : RecordUpdate) :
    Option Record × CacheWorld :=
  let out := RecordRepository.updateById w.records id u
  (out.1, invalidateAll { w with records := out.2 })

/-- Modelled from the spec: soft delete — per the service unit tests,
`delete` applies `updateById(id, { deletedAt: now })` — followed by the
blanket cache invalidation. -/
def deleteRecordC (w : CacheWorld) (id : Nat) (now : Nat) :
    Option Record × CacheWorld :=
  let out := RecordRepository.updateById w.records id { emptyUpdate with deletedAt := some now }
  (out.1, invalidateAll { w with records := out.2 })

end RecordService

/- Concrete fixtures used by witnesses and counterexamples. -/

/-- A live catalog record with stock 10 at price 25 (the fixture used
throughout the repository's tests). -/
def demoRecord : Record :=
  { artist := "The Beatles", album := "Abbey Road", price := 25, qty := 10,
    format := "Vinyl", category := "Rock", mbid := none, tracklist := [],
    deletedAt := none }

/-- A coordinator state holding the single demo record under id 1. -/
def demoWorld : OrderWorld :=
  { records := [(1, demoRecord)], orders := [], log := [], trace := [] }

/-- The race fixture: one record with `qty = 5`. -/
def raceWorld : OrderWorld :=
  { records := [(1, { demoRecord with qty := 5 })], orders := [], log := [], trace := [] }

/-- A store whose only record is tombstoned (`deletedAt` set) with stock 5. -/
def tombstonedStore : RecordStore :=
  [(1, { demoRecord with qty := 5, deletedAt := some 100 })]

/-- The all-defaults filter (no search fields, no pagination params). -/
def emptyFilter : RecordFilter :=
  { q := none, artist := none, album := none, format := none, category := none,
    limit := .missing, offset := .missing }

/- Store lemmas. -/

theorem findRec_setRec_self {s : RecordStore} {id : Nat} {r : Record} (r' : Record)
    (h : findRec s id = some r) : findRec (setRec s id r') id = some r' := by
  induction s with
  | nil => simp [findRec] at h
  | cons p ps ih =>
      by_cases hp : p.1 = id
      · simp [findRec, setRec, hp]
      · simp only [findRec, if_neg hp] at h
        simp only [setRec, if_neg hp, findRec, if_neg hp]
        exact ih h

theorem findRec_setRec_ne {s : RecordStore} {id j : Nat} (r' : Record) (hne : j ≠ id) :
    findRec (setRec s id r') j = findRec s j := by
  induction s with
  | nil => rfl
  | cons p ps ih =>
      by_cases hp : p.1 = id
      · have h1 : ¬ (id = j) := fun h => hne h.symm
        have h2 : ¬ (p.1 = j) := fun h => h1 (hp.symm.trans h)
        simp [setRec, findRec, hp, h1, h2]
      · by_cases hpj : p.1 = j
        · simp [setRec, findRec, hp, hpj, hne]
        · simp [setRec, findRec, hp, hpj, ih]

theorem stockNonneg_setRec {s : RecordStore} {id : Nat} {r' : Record}
    (hs : StockNonneg s) (hr : 0 ≤ r'.qty) : StockNonneg (setRec s id r') := by
  induction s with
  | nil => intro p hp; simp [setRec] at hp
  | cons p ps ih =>
      intro x hx
      by_cases hp : p.1 = id
      · simp only [setRec, hp, if_true] at hx
        rcases List.mem_cons.mp hx with h | h
        · subst h; exact hr
        · exact hs x (List.mem_cons_of_mem _ h)
      · simp only [setRec, hp, if_false] at hx
        rcases List.mem_cons.mp hx with h | h
        · subst h; exact hs x (List.mem_cons_self _ _)
        · exact ih (fun y hy => hs y (List.mem_cons_of_mem _ hy)) x h

theorem stockNonneg_find {s : RecordStore} {id : Nat} {r : Record}
    (hs : StockNonneg s) (h : findRec s id = some r) : 0 ≤ r.qty := by
  induction s with
  | nil => simp [findRec] at h
  | cons p ps ih =>
      by_cases hp : p.1 = id
      · simp only [findRec, hp, if_true, Option.some.injEq] at h
        subst h
        exact hs p (List.mem_cons_self _ _)
      · simp only [findRec, hp, if_false] at h
        exact ih (fun y hy => hs y (List.mem_cons_of_mem _ hy)) h

/- Branch equations for the repository operations. -/

theorem decrement_success {s : RecordStore} {id : Nat} {n : Int} {r : Record}
    (h : findRec s id = some r) (hn : n ≤ r.qty) :
    RecordRepository.decrementStockIfAvailable s id n =
      (some { r with qty := r.qty - n }, setRec s id { r with qty := r.qty - n }) := by
  simp [RecordRepository.decrementStockIfAvailable, h, hn]

theorem decrement_insufficient {s : RecordStore} {id : Nat} {n : Int} {r : Record}
    (h : findRec s id = some r) (hn : ¬ n ≤ r.qty) :
    RecordRepository.decrementStockIfAvailable s id n = (none, s) := by
  simp [RecordRepository.decrementStockIfAvailable, h, hn]

theorem decrement_notfound {s : RecordStore} {id : Nat} {n : Int}
    (h : findRec s id = none) :
    RecordRepository.decrementStockIfAvailable s id n = (none, s) := by
  simp [RecordRepository.decrementStockIfAvailable, h]

theorem increment_eq {s : RecordStore} {id : Nat} {n : Int} {r : Record}
    (h : findRec s id = some r) :
    RecordRepository.incrementStock s id n =
      (some { r with qty := r.qty + n }, setRec s id { r with qty := r.qty + n }) := by
  simp [RecordRepository.incrementStock, h]

/- Branch equations for the order coordinator. -/

theorem increment_notfound {s : RecordStore} {id : Nat} {n : Int}
    (h : findRec s id = none) :
    RecordRepository.incrementStock s id n = (none, s) := by
  simp [RecordRepository.incrementStock, h]

theorem create_ok {w : OrderWorld} {id : Nat} {n : Int} {r : Record}
    (h : findRec w.records id = some r) (hn : n ≤ r.qty) (rt : Bool) :
    OrderService.create w id n false rt =
      (.ok { recordId := id, quantity := n, price := r.price },
       { w with records := setRec w.records id { r with qty := r.qty - n }
                orders := w.orders ++ [{ recordId := id, quantity := n, price := r.price }]
                trace := w.trace ++ [.reserveCall id n, .persistCall] }) := by
  unfold OrderService.create
  rw [decrement_success h hn]
  simp

theorem create_insufficient {w : OrderWorld} {id : Nat} {n : Int} {r : Record}
    (h : findRec w.records id = some r) (hn : ¬ n ≤ r.qty) (pf rt : Bool) :
    OrderService.create w id n pf rt =
      (.error .insufficientStock, { w with trace := w.trace ++ [.reserveCall id n] }) := by
  unfold OrderService.create
  rw [decrement_insufficient h hn]

theorem create_notfound {w : OrderWorld} {id : Nat} {n : Int}
    (h : findRec w.records id = none) (pf rt : Bool) :
    OrderService.create w id n pf rt =
      (.error .insufficientStock, { w with trace := w.trace ++ [.reserveCall id n] }) := by
  unfold OrderService.create
  rw [decrement_notfound h]

theorem create_persistFailed {w : OrderWorld} {id : Nat} {n : Int} {r : Record}
    (h : findRec w.records id = some r) (hn : n ≤ r.qty) :
    OrderService.create w id n true false =
      (.error .persistenceFailure,
       { w with
           records := (RecordRepository.incrementStock
             (setRec w.records id { r with qty := r.qty - n }) id n).2
           log := w.log ++ ["Order creation failed, rolling back stock"]
           trace := w.trace ++ [.reserveCall id n, .persistCall, .releaseCall id n] }) := by
  unfold OrderService.create
  rw [decrement_success h hn]
  simp

theorem create_releaseFailed {w : OrderWorld} {id : Nat} {n : Int} {r : Record}
    (h : findRec w.records id = some r) (hn : n ≤ r.qty) :
    OrderService.create w id n true true =
      (.error .releaseFailure,
       { w with
           records := setRec w.records id { r with qty := r.qty - n }
           log := w.log ++ ["Order creation failed, rolling back stock"]
           trace := w.trace ++ [.reserveCall id n, .persistCall, .releaseCall id n] }) := by
  unfold OrderService.create
  rw [decrement_success h hn]
  simp

/- Nonnegativity preservation for the stock operations. -/

theorem decrement_stockNonneg (s : RecordStore) (id : Nat) (n : Int)
    (hs : StockNonneg s) :
    StockNonneg (RecordRepository.decrementStockIfAvailable s id n).2 := by
  cases hfind : findRec s id with
  | none => rw [decrement_notfound hfind]; exact hs
  | some r =>
      by_cases hn : n ≤ r.qty
      · rw [decrement_success hfind hn]
        refine stockNonneg_setRec hs ?_
        show 0 ≤ r.qty - n
        omega
      · rw [decrement_insufficient hfind hn]; exact hs

theorem increment_stockNonneg (s : RecordStore) (id : Nat) (n : Int)
    (hn : 0 ≤ n) (hs : StockNonneg s) :
    StockNonneg (RecordRepository.incrementStock s id n).2 := by
  cases hfind : findRec s id with
  | none => rw [increment_notfound hfind]; exact hs
  | some r =>
      rw [increment_eq hfind]
      refine stockNonneg_setRec hs ?_
      have h0 : 0 ≤ r.qty := stockNonneg_find hs hfind
      show 0 ≤ r.qty + n
      omega

theorem create_stockNonneg (w : OrderWorld) (id : Nat) (n : Int) (pf rt : Bool)
    (hn : 0 ≤ n) (hs : StockNonneg w.records) :
    StockNonneg ((OrderService.create w id n pf rt).2.records) := by
  cases hfind : findRec w.records id with
  | none => rw [create_notfound hfind pf rt]; exact hs
  | some r =>
      by_cases hq : n ≤ r.qty
      · have hdec : StockNonneg (setRec w.records id { r with qty := r.qty - n }) := by
          refine stockNonneg_setRec hs ?_
          show 0 ≤ r.qty - n
          omega
        cases pf with
        | false =>
            rw [create_ok hfind hq rt]
            exact hdec
        | true =>
            cases rt with
            | false =>
                rw [create_persistFailed hfind hq]
                exact increment_stockNonneg _ id n hn hdec
            | true =>
                rw [create_releaseFailed hfind hq]
                exact hdec
      · rw [create_insufficient hfind hq pf rt]; exact hs

/- Batch lemmas for concurrent order creation against one record. -/

theorem runOrders_stock (id : Nat) (qs : List Int) :
    ∀ (w : OrderWorld) (r : Record), findRec w.records id = some r → 0 ≤ r.qty →
      ∃ r', findRec (runOrders w id qs).1.records id = some r' ∧
        r'.qty = r.qty - successTotal (runOrders w id qs).2 ∧ 0 ≤ r'.qty := by
  induction qs with
  | nil =>
      intro w r h h0
      refine ⟨r, ?_, ?_, h0⟩
      · simpa [runOrders] using h
      · simp [runOrders, successTotal]
  | cons q qs ih =>
      intro w r h h0
      by_cases hq : q ≤ r.qty
      · have hrec : findRec (OrderService.create w id q false false).2.records id =
            some { r with qty := r.qty - q } := by
          rw [create_ok h hq false]
          exact findRec_setRec_self _ h
        obtain ⟨r', h1, h2, h3⟩ :=
          ih (OrderService.create w id q false false).2 _ hrec (by show 0 ≤ r.qty - q; omega)
        refine ⟨r', ?_, ?_, h3⟩
        · simpa [runOrders] using h1
        · have hres : (runOrders w id (q :: qs)).2 =
              (OrderService.create w id q false false).1 ::
                (runOrders (OrderService.create w id q false false).2 id qs).2 := by
            simp [runOrders]
          have hfst : (runOrders w id (q :: qs)).1 =
              (runOrders (OrderService.create w id q false false).2 id qs).1 := by
            simp [runOrders]
          have hok : (OrderService.create w id q false false).1 =
              .ok { recordId := id, quantity := q, price := r.price } := by
            rw [create_ok h hq false]
          rw [hres, hok]
          simp only [successTotal]
          have h2' : r'.qty = ({ r with qty := r.qty - q } : Record).qty -
              successTotal (runOrders (OrderService.create w id q false false).2 id qs).2 := h2
          simp only [] at h2'
          omega
      · have hstep := create_insufficient h hq false false
        have hrec : findRec (OrderService.create w id q false false).2.records id = some r := by
          rw [hstep]
          exact h
        obtain ⟨r', h1, h2, h3⟩ :=
          ih (OrderService.create w id q false false).2 _ hrec h0
        refine ⟨r', ?_, ?_, h3⟩
        · simpa [runOrders] using h1
        · have hres : (runOrders w id (q :: qs)).2 =
              (OrderService.create w id q false false).1 ::
                (runOrders (OrderService.create w id q false false).2 id qs).2 := by
            simp [runOrders]
          have herr : (OrderService.create w id q false false).1 =
              .error .insufficientStock := by
            rw [hstep]
          rw [hres, herr]
          simp only [successTotal]
          omega

/- Claim theorems. -/

/-- C1: `decrementStockIfAvailable` is a single atomic check-and-decrement
against the store: for a record present under `id`, if its `qty` is at
least the requested `n` the call returns the post-decrement record whose
`qty` equals the prior `qty` minus `n`, stores exactly that record under
`id`, and leaves every other record untouched; when the condition fails it
returns the `InsufficientStock` variant (`null`) and the store — in
particular `qty` — is unchanged. -/
theorem decrementStockIfAvailable_spec (s : RecordStore) (id : Nat) (n : Int) (r : Record)
    (h : findRec s id = some r) :
    (n ≤ r.qty →
      (RecordRepository.decrementStockIfAvailable s id n).1 =
        some { r with qty := r.qty - n } ∧
      findRec (RecordRepository.decrementStockIfAvailable s id n).2 id =
        some { r with qty := r.qty - n } ∧
      ∀ j, j ≠ id →
        findRec (RecordRepository.decrementStockIfAvailable s id n).2 j = findRec s j) ∧
    (r.qty < n →
      (RecordRepository.decrementStockIfAvailable s id n).1 = none ∧
      (RecordRepository.decrementStockIfAvailable s id n).2 = s) := by
  constructor
  · intro hn
    rw [decrement_success h hn]
    exact ⟨rfl, findRec_setRec_self _ h, fun j hj => findRec_setRec_ne _ hj⟩
  · intro hn
    rw [decrement_insufficient h (not_le.mpr hn)]
    exact ⟨rfl, rfl⟩

/-- C1 witness: reserving 3 units from the demo record with stock 10
succeeds and returns the record at `qty = 7`. -/
theorem decrementStockIfAvailable_spec_witness :
    findRec [(1, demoRecord)] 1 = some demoRecord ∧
    (3 : Int) ≤ demoRecord.qty ∧
    (RecordRepository.decrementStockIfAvailable [(1, demoRecord)] 1 3).1 =
      some { demoRecord with qty := demoRecord.qty - 3 } :=
  ⟨rfl, by decide,
    ((decrementStockIfAvailable_spec [(1, demoRecord)] 1 3 demoRecord rfl).1 (by decide)).1⟩

/-- C2: for any batch of `createOrder` calls against one record with stock
`S ≥ 0` (any arrival order of any multiset of requests — each call's stock
access is one atomic store operation, so every concurrent interleaving is
one such sequential order), the total quantity of the successful calls
never exceeds `S` and the final stock is `S` minus that total; in
particular two calls of 3 units each against `qty = 5` yield exactly one
success and one `InsufficientStock`, with final `qty = 2`. -/
theorem createOrder_no_oversell (w : OrderWorld) (id : Nat) (S : Int) (r : Record)
    (qs : List Int) (h : findRec w.records id = some r) (hqty : r.qty = S) (hS : 0 ≤ S) :
    (successTotal (runOrders w id qs).2 ≤ S ∧
      ∃ r', findRec (runOrders w id qs).1.records id = some r' ∧
        r'.qty = S - successTotal (runOrders w id qs).2) ∧
    ((runOrders raceWorld 1 [3, 3]).2 =
        [Except.ok { recordId := 1, quantity := 3, price := 25 },
         Except.error OrderErr.insufficientStock] ∧
      findRec (runOrders raceWorld 1 [3, 3]).1.records 1 =
        some { demoRecord with qty := 2 }) := by
  obtain ⟨r', h1, h2, h3⟩ := runOrders_stock id qs w r h (hqty ▸ hS)
  refine ⟨⟨?_, r', h1, ?_⟩, rfl, rfl⟩
  · omega
  · omega

/-- C2 witness: three requests of 4 units against stock 10 reserve at most
10 units in total. -/
theorem createOrder_no_oversell_witness :
    findRec demoWorld.records 1 = some demoRecord ∧
    demoRecord.qty = 10 ∧ (0 : Int) ≤ 10 ∧
    successTotal (runOrders demoWorld 1 [4, 4, 4]).2 ≤ 10 :=
  ⟨rfl, rfl, by decide,
    ((createOrder_no_oversell demoWorld 1 10 demoRecord [4, 4, 4] rfl rfl (by decide)).1).1⟩

/-- C3: `qty` never becomes negative — each core stock operation preserves
the store-wide invariant `0 ≤ qty`: the conditional decrement
unconditionally (its guard `qty ≥ n` protects the decrement), the release
increment for nonnegative amounts, and the full `createOrder` flow (every
combination of persistence/release failure) for nonnegative requested
quantities; the enforcement is the conditional update itself — no lock is
modelled anywhere. -/
theorem qty_never_negative :
    (∀ s id n, StockNonneg s →
      StockNonneg (RecordRepository.decrementStockIfAvailable s id n).2) ∧
    (∀ s id n, 0 ≤ n → StockNonneg s →
      StockNonneg (RecordRepository.incrementStock s id n).2) ∧
    (∀ w id n pf rt, 0 ≤ n → StockNonneg w.records →
      StockNonneg ((OrderService.create w id n pf rt).2.records)) :=
  ⟨decrement_stockNonneg, increment_stockNonneg, create_stockNonneg⟩

/-- C3 witness: the invariant holds after a full `createOrder` with failing
persistence against the race fixture. -/
theorem qty_never_negative_witness :
    (0 : Int) ≤ 3 ∧ StockNonneg raceWorld.records ∧
    StockNonneg ((OrderService.create raceWorld 1 3 true false).2.records) :=
  ⟨by decide, by decide,
    qty_never_negative.2.2 raceWorld 1 3 true false (by decide) (by decide)⟩

/-- C4: if order persistence fails after a successful reservation of `n`
units from a record at stock `Q` (and the compensating release call itself
succeeds), the coordinator issues exactly one `releaseCall` — the trace of
collaborator calls is precisely reserve, persist, release — the record is
restored to exactly its prior state (so `qty` returns to `Q`), no order is
persisted, and the original persistence error is re-raised, never
swallowed. -/
theorem persistFailure_compensated (w : OrderWorld) (id : Nat) (n : Int) (r : Record)
    (h : findRec w.records id = some r) (hn : n ≤ r.qty) :
    (OrderService.create w id n true false).1 = Except.error OrderErr.persistenceFailure ∧
    findRec (OrderService.create w id n true false).2.records id = some r ∧
    (OrderService.create w id n true false).2.trace =
      w.trace ++ [.reserveCall id n, .persistCall, .releaseCall id n] ∧
    (OrderService.create w id n true false).2.orders = w.orders := by
  rw [create_persistFailed h hn]
  refine ⟨rfl, ?_, rfl, rfl⟩
  have h1 : findRec (setRec w.records id { r with qty := r.qty - n }) id =
      some { r with qty := r.qty - n } := findRec_setRec_self _ h
  rw [increment_eq h1]
  have h2 : findRec (setRec (setRec w.records id { r with qty := r.qty - n }) id
      { r with qty := r.qty - n + n }) id = some { r with qty := r.qty - n + n } :=
    findRec_setRec_self _ h1
  have h3 : ({ r with qty := r.qty - n + n } : Record) = r := by
    have hq : r.qty - n + n = r.qty := by omega
    rw [hq]
  exact h2.trans (congrArg some h3)

/-- C4 witness: a failed persistence after reserving 3 of 10 restores the
demo record exactly and re-raises the persistence error. -/
theorem persistFailure_compensated_witness :
    findRec demoWorld.records 1 = some demoRecord ∧ (3 : Int) ≤ demoRecord.qty ∧
    (OrderService.create demoWorld 1 3 true false).1 =
      Except.error OrderErr.persistenceFailure ∧
    findRec (OrderService.create demoWorld 1 3 true false).2.records 1 = some demoRecord :=
  ⟨rfl, by decide,
    (persistFailure_compensated demoWorld 1 3 demoRecord rfl (by decide)).1,
    (persistFailure_compensated demoWorld 1 3 demoRecord rfl (by decide)).2.1⟩

/-- C5: when the reservation reports insufficient stock (record present
with `qty < n`), `createOrder` fails with `InsufficientStock` and has no
side effects: the resulting state differs from the initial one only by the
recorded reservation attempt — the record store (hence `qty`), the order
store, and the log are unchanged, and no order-store call appears in the
trace. -/
theorem insufficientStock_no_side_effects (w : OrderWorld) (id : Nat) (n : Int) (r : Record)
    (h : findRec w.records id = some r) (hn : r.qty < n) (pf rt : Bool) :
    OrderService.create w id n pf rt =
      (Except.error OrderErr.insufficientStock,
       { w with trace := w.trace ++ [.reserveCall id n] }) :=
  create_insufficient h (not_le.mpr hn) pf rt

/-- C5 witness: requesting 10 units from stock 5 is rejected with
`InsufficientStock` and leaves the store untouched. -/
theorem insufficientStock_no_side_effects_witness :
    findRec raceWorld.records 1 = some { demoRecord with qty := 5 } ∧
    ({ demoRecord with qty := 5 } : Record).qty < 10 ∧
    OrderService.create raceWorld 1 10 false false =
      (Except.error OrderErr.insufficientStock,
       { raceWorld with trace := [.reserveCall 1 10] }) :=
  ⟨rfl, by decide,
    insufficientStock_no_side_effects raceWorld 1 10 _ rfl (by decide) false false⟩

/-- C6 counterexample: `decrementStockIfAvailable` queries only on `_id`
and `qty`, so the tombstoned demo record (stock 5, `deletedAt` set) IS
decremented by a reservation of 3 — its stock operation is not excluded —
and `createOrder` against an id absent from the store raises
`InsufficientStock` (the `ConflictException`), not a `RecordNotFound`. -/
theorem reserve_tombstone_counterexample :
    (RecordRepository.decrementStockIfAvailable tombstonedStore 1 3).1 =
      some { demoRecord with qty := 2, deletedAt := some 100 } ∧
    findRec (RecordRepository.decrementStockIfAvailable tombstonedStore 1 3).2 1 =
      some { demoRecord with qty := 2, deletedAt := some 100 } ∧
    (OrderService.create { records := [], orders := [], log := [], trace := [] }
        7 1 false false).1 = Except.error OrderErr.insufficientStock :=
  ⟨rfl, rfl, rfl⟩

/-- C6 amended: the reserve path does not distinguish `NotFound` from
`InsufficientStock` — `decrementStockIfAvailable` returns `null` with the
store unchanged when the record is absent, succeeds on any record with
sufficient `qty` regardless of its tombstone, and `createOrder` surfaces
the absent-record case as `InsufficientStock` (the `ConflictException`),
never as `RecordNotFound`. -/
theorem reserve_conflates_notfound (s : RecordStore) (id : Nat) (n : Int) :
    (findRec s id = none →
      RecordRepository.decrementStockIfAvailable s id n = (none, s)) ∧
    (∀ r, findRec s id = some r → n ≤ r.qty →
      (RecordRepository.decrementStockIfAvailable s id n).1 =
        some { r with qty := r.qty - n }) ∧
    (∀ w : OrderWorld, w.records = s → findRec s id = none → ∀ pf rt,
      (OrderService.create w id n pf rt).1 = Except.error OrderErr.insufficientStock) := by
  refine ⟨fun h => decrement_notfound h, fun r h hn => by rw [decrement_success h hn],
    fun w hw h pf rt => ?_⟩
  rw [create_notfound (hw ▸ h) pf rt]

/-- C6 amended witness: the tombstoned record with stock 5 is decremented
by 3 despite its tombstone. -/
theorem reserve_conflates_notfound_witness :
    findRec tombstonedStore 1 = some { demoRecord with qty := 5, deletedAt := some 100 } ∧
    (3 : Int) ≤ ({ demoRecord with qty := 5, deletedAt := some 100 } : Record).qty ∧
    (RecordRepository.decrementStockIfAvailable tombstonedStore 1 3).1 =
      some { demoRecord with qty := 5 - 3, deletedAt := some 100 } :=
  ⟨rfl, by decide,
    (reserve_conflates_notfound tombstonedStore 1 3).2.1 _ rfl (by decide)⟩

/-- C7: an order's price is the snapshot of the record's price at creation
time: a successful `createOrder` stores exactly the reserved record's
price in the order, and a later record update (`updateById`) — for any
update document, in particular one changing the price — touches no order
field; concretely, creating an order at price 25 and then updating the
record's price to 100 leaves the record at 100 and the stored order at
price 25. -/
theorem order_price_snapshot (w : OrderWorld) (id : Nat) (n : Int) (r : Record)
    (h : findRec w.records id = some r) (hn : n ≤ r.qty) :
    ((OrderService.create w id n false false).1 =
        Except.ok { recordId := id, quantity := n, price := r.price } ∧
      (OrderService.create w id n false false).2.orders =
        w.orders ++ [{ recordId := id, quantity := n, price := r.price }] ∧
      ∀ u, (updateRecordW (OrderService.create w id n false false).2 id u).2.orders =
        (OrderService.create w id n false false).2.orders) ∧
    ((updateRecordW (OrderService.create demoWorld 1 1 false false).2 1
        { emptyUpdate with price := some 100 }).2.orders =
      [{ recordId := 1, quantity := 1, price := 25 }] ∧
     findRec (updateRecordW (OrderService.create demoWorld 1 1 false false).2 1
        { emptyUpdate with price := some 100 }).2.records 1 =
      some { demoRecord with price := 100, qty := 9 }) := by
  rw [create_ok h hn false]
  exact ⟨⟨rfl, rfl, fun u => rfl⟩, rfl, rfl⟩

/-- C7 witness: creating an order for 2 units of the demo record snapshots
price 25. -/
theorem order_price_snapshot_witness :
    findRec demoWorld.records 1 = some demoRecord ∧ (2 : Int) ≤ demoRecord.qty ∧
    (OrderService.create demoWorld 1 2 false false).1 =
      Except.ok { recordId := 1, quantity := 2, price := 25 } :=
  ⟨rfl, by decide, ((order_price_snapshot demoWorld 1 2 demoRecord rfl (by decide)).1).1⟩

/-- C8 (spec-modelled): after any catalog mutation — record create, update
or delete — the filter-keyed cache is entirely invalidated, so a
subsequent `listRecords` for any filter (in particular a previously cached
one) returns the repository's fresh page over the post-mutation store,
never a stale cached page. -/
theorem cache_invalidation_fresh (w : CacheWorld) (f : RecordFilter) :
    (∀ id r, (RecordService.findAllCached (RecordService.createRecordC w id r) f).1 =
        RecordRepository.findAll (RecordService.createRecordC w id r).records f) ∧
    (∀ id u, (RecordService.findAllCached (RecordService.updateRecordC w id u).2 f).1 =
        RecordRepository.findAll (RecordService.updateRecordC w id u).2.records f) ∧
    (∀ id t, (RecordService.findAllCached (RecordService.deleteRecordC w id t).2 f).1 =
        RecordRepository.findAll (RecordService.deleteRecordC w id t).2.records f) := by
  refine ⟨fun id r => ?_, fun id u => ?_, fun id t => ?_⟩ <;>
    simp [RecordService.findAllCached, RecordService.createRecordC,
      RecordService.updateRecordC, RecordService.deleteRecordC, RecordService.invalidateAll]

/-- C9 counterexample: when the compensating release itself fails, the
coordinator's result is the release failure — not the original persistence
error, which it replaces — and the log holds only the persistence-failure
entry, no release-failure entry. -/
theorem release_failure_counterexample :
    (OrderService.create demoWorld 1 3 true true).1 ≠
      Except.error OrderErr.persistenceFailure ∧
    (OrderService.create demoWorld 1 3 true true).1 =
      Except.error OrderErr.releaseFailure ∧
    (OrderService.create demoWorld 1 3 true true).2.log =
      ["Order creation failed, rolling back stock"] :=
  ⟨fun hc => OrderErr.noConfusion (Except.error.inj hc), rfl, rfl⟩

/-- C9 amended: when the compensating release fails after a persistence
failure, the coordinator attempts exactly one compensation (the trace is
precisely reserve, persist, release — no retry), has already logged the
persistence failure (and logs nothing else — in particular no
release-failure entry), and the release failure propagates to the caller
in place of the original persistence error while the stock remains
decremented. -/
theorem release_failure_behavior (w : OrderWorld) (id : Nat) (n : Int) (r : Record)
    (h : findRec w.records id = some r) (hn : n ≤ r.qty) :
    (OrderService.create w id n true true).1 = Except.error OrderErr.releaseFailure ∧
    (OrderService.create w id n true true).2.trace =
      w.trace ++ [.reserveCall id n, .persistCall, .releaseCall id n] ∧
    (OrderService.create w id n true true).2.log =
      w.log ++ ["Order creation failed, rolling back stock"] ∧
    findRec (OrderService.create w id n true true).2.records id =
      some { r with qty := r.qty - n } := by
  rw [create_releaseFailed h hn]
  exact ⟨rfl, rfl, rfl, findRec_setRec_self _ h⟩

/-- C9 amended witness: the release-failure run against the demo record
leaves the stock decremented to 7 and reports the release failure. -/
theorem release_failure_behavior_witness :
    findRec demoWorld.records 1 = some demoRecord ∧ (3 : Int) ≤ demoRecord.qty ∧
    findRec (OrderService.create demoWorld 1 3 true true).2.records 1 =
      some { demoRecord with qty := demoRecord.qty - 3 } :=
  ⟨rfl, by decide, (release_failure_behavior demoWorld 1 3 demoRecord rfl (by decide)).2.2.2⟩

/-- C10: `findAll` clamps the effective page size to at most 100, with a
default of 20 when `limit` is missing or non-numeric, clamps the effective
offset to at least 0, with a default of 0 when `offset` is missing or
non-numeric, reports these effective values in the returned
`{data, total, limit, offset}`, and computes `total` as the count of all
matching non-deleted records, independent of the pagination parameters;
every served record is non-deleted. -/
theorem findAll_pagination_clamps (s : RecordStore) (f : RecordFilter) :
    (RecordRepository.findAll s f).limit ≤ 100 ∧
    (f.limit = JSNum.missing ∨ f.limit = JSNum.nan →
      (RecordRepository.findAll s f).limit = 20) ∧
    0 ≤ (RecordRepository.findAll s f).offset ∧
    (f.offset = JSNum.missing ∨ f.offset = JSNum.nan →
      (RecordRepository.findAll s f).offset = 0) ∧
    (RecordRepository.findAll s f).total =
      ((s.map Prod.snd).filter (fun r => buildQuery f r && r.deletedAt.isNone)).length ∧
    (∀ l o, (RecordRepository.findAll s { f with limit := l, offset := o }).total =
      (RecordRepository.findAll s f).total) ∧
    (∀ r ∈ (RecordRepository.findAll s f).data, r.deletedAt = none) := by
  refine ⟨?_, ?_, ?_, ?_, rfl, fun l o => rfl, ?_⟩
  · exact min_le_right _ _
  · rintro (h | h) <;> simp [RecordRepository.findAll, h, jsNumOr]
  · exact le_max_right _ _
  · rintro (h | h) <;> simp [RecordRepository.findAll, h, jsNumOr]
  · intro r hr
    have h1 : r ∈ (s.map Prod.snd).filter
        (fun r => buildQuery f r && r.deletedAt.isNone) :=
      List.mem_of_mem_drop (List.mem_of_mem_take hr)
    have h2 := List.of_mem_filter h1
    simp only [Bool.and_eq_true, Option.isNone_iff_eq_none] at h2
    exact h2.2

/-- C10 witness: on the all-defaults filter the reported limit is 20 and
the reported offset is 0. -/
theorem findAll_pagination_clamps_witness :
    (emptyFilter.limit = JSNum.missing ∨ emptyFilter.limit = JSNum.nan) ∧
    (RecordRepository.findAll [(1, demoRecord)] emptyFilter).limit = 20 ∧
    (RecordRepository.findAll [(1, demoRecord)] emptyFilter).offset = 0 :=
  ⟨Or.inl rfl,
    (findAll_pagination_clamps [(1, demoRecord)] emptyFilter).2.1 (Or.inl rfl),
    (findAll_pagination_clamps [(1, demoRecord)] emptyFilter).2.2.2.1 (Or.inl rfl)⟩

end RecordStoreSpec
